import Mathlib

/-!
Shallow embedding of the traffic-control core of the `u18n` translation
service: the token-bucket rate limiter (`app/services/rate_limiter.py`),
the concurrency throttler (`app/services/request_throttler.py`), and the
admission pipeline that composes them around a downstream handler
(`app/api/middleware.py`, `app/api/routes.py`).

Python floats and timestamps are modelled as rationals (`ℚ`), Python ints
as `ℤ`.  A Python operation that can raise is embedded as an
`Option`-valued function (`none` = the call raises); header strings are
modelled by the numeric values they print.
-/

namespace U18n

/-- Python `int(x)` applied to a float truncates toward zero. -/
def pytrunc (x : ℚ) : ℤ := if x < 0 then ⌈x⌉ else ⌊x⌋

/-- Rounding to the nearest integer with ties going to the even integer,
the rule used when Python formats a float with a fixed number of decimals. -/
def rne (x : ℚ) : ℤ :=
  let f := ⌊x⌋
  if x - f < 1/2 then f
  else if 1/2 < x - f then f + 1
  else if f % 2 = 0 then f else f + 1

/-- Numeric value printed by the Python format `f"\x7bx:.1f\x7d"`:
`x` rounded (ties to even) to one decimal place. -/
def fmt1 (x : ℚ) : ℚ := (rne (10 * x) : ℚ) / 10

/-- Python division `a / b`: raises `ZeroDivisionError` when `b = 0`,
modelled as `none`. -/
def pydiv (a b : ℚ) : Option ℚ := if b = 0 then none else some (a / b)

/-- State of `RateLimiter` (`app/services/rate_limiter.py`): the fields
set in `__init__` (the lock is the mutual-exclusion discipline under which
`check` runs atomically, so it has no counterpart in the state). -/
structure RLState where
  requests_per_minute : ℤ
  burst : ℤ
  tokens : ℚ
  last_check : ℚ
  deriving DecidableEq

/-- Numeric values of the headers built by `RateLimiter.check`. -/
structure RLHeaders where
  limit : ℤ                -- X-RateLimit-Limit
  remaining : ℚ            -- X-RateLimit-Remaining, after one-decimal formatting
  reset : ℤ                -- X-RateLimit-Reset
  retryAfter : Option ℤ    -- Retry-After, present only on denial
  deriving DecidableEq

/-- `RateLimiter.__init__(requests_per_minute, burst)` at time `now`:
plain field assignments, no validation of the arguments. -/
def RateLimiter.init (requests_per_minute burst : ℤ) (now : ℚ) : RLState :=
  ⟨requests_per_minute, burst, (burst : ℚ), now⟩

/-- Replenishment step of `RateLimiter.check` (`rate_limiter.py`, lines
28-34): add tokens for the elapsed time, then cap at the burst limit. -/
def replenish (st : RLState) (now : ℚ) : ℚ :=
  let time_passed := now - st.last_check
  let t1 := st.tokens + time_passed * ((st.requests_per_minute : ℚ) / 60)
  if (st.burst : ℚ) < t1 then (st.burst : ℚ) else t1

/-- `RateLimiter.check` (`rate_limiter.py`, lines 17-51), embedded as a
fallible function: Python raises `ZeroDivisionError` in the reset-header
and wait-time divisions when `requests_per_minute = 0`, so every division
by `requests_per_minute` goes through `pydiv`.  Returns the new state, the
admission decision, and the headers. -/
def checkE (st : RLState) (now : ℚ) : Option (RLState × Bool × RLHeaders) := do
  let t2 := replenish st now
  let q ← pydiv t2 (st.requests_per_minute : ℚ)
  let hdrs : RLHeaders :=
    { limit := st.requests_per_minute
      remaining := fmt1 t2
      reset := pytrunc (60 * (1 - q))
      retryAfter := none }
  if 1 ≤ t2 then
    return (⟨st.requests_per_minute, st.burst, t2 - 1, now⟩, true, hdrs)
  else
    let w ← pydiv 60 (st.requests_per_minute : ℚ)
    return (⟨st.requests_per_minute, st.burst, t2, now⟩, false,
      { hdrs with retryAfter := some (pytrunc ((1 - t2) * w)) })

/-- `RateLimiter.check` restricted to a non-zero rate, where no division
raises: the same computation with total field-value division
(`check_total_of_rpm_ne_zero` below proves it agrees with `checkE`). -/
def check (st : RLState) (now : ℚ) : RLState × Bool × RLHeaders :=
  let t2 := replenish st now
  let hdrs : RLHeaders :=
    { limit := st.requests_per_minute
      remaining := fmt1 t2
      reset := pytrunc (60 * (1 - t2 / (st.requests_per_minute : ℚ)))
      retryAfter := none }
  if 1 ≤ t2 then
    (⟨st.requests_per_minute, st.burst, t2 - 1, now⟩, true, hdrs)
  else
    (⟨st.requests_per_minute, st.burst, t2, now⟩, false,
      { hdrs with retryAfter := some (pytrunc ((1 - t2) * (60 / (st.requests_per_minute : ℚ)))) })

/-- Repeated `check()` calls at the given sequence of timestamps,
threading the limiter state. -/
def runChecks (st : RLState) (ts : List ℚ) : RLState :=
  ts.foldl (fun s t => (check s t).1) st

/-- `n` consecutive `check()` calls issued at the same instant
(`now = last_check`, zero elapsed time); returns the final state and the
number of calls that were allowed. -/
def repeatCheck (st : RLState) : ℕ → RLState × ℕ
  | 0 => (st, 0)
  | n + 1 =>
    let c := check st st.last_check
    let r := repeatCheck c.1 n
    (r.1, (if c.2.1 then 1 else 0) + r.2)

/-- State of `RequestThrottler` (`app/services/request_throttler.py`):
`sem` is the internal counter of the unbounded `threading.Semaphore`. -/
structure ThState where
  max_concurrent : ℤ
  sem : ℕ
  current_requests : ℤ
  deriving DecidableEq

/-- Numeric values of the headers built by `RequestThrottler.acquire`. -/
structure ThHeaders where
  limit : ℤ        -- X-Throttle-Limit
  usage : ℤ        -- X-Throttle-Usage
  remaining : ℤ    -- X-Throttle-Remaining (the literal 0 when denied)
  deriving DecidableEq

/-- `RequestThrottler.__init__(max_concurrent)`: the only failure mode is
`threading.Semaphore(value)` raising `ValueError` on a negative value;
otherwise plain assignments, no further validation. -/
def RequestThrottler.init (max_concurrent : ℤ) : Option ThState :=
  if max_concurrent < 0 then none
  else some ⟨max_concurrent, max_concurrent.toNat, 0⟩

/-- `RequestThrottler.acquire` (`request_throttler.py`, lines 16-37):
non-blocking semaphore acquire; on success the counter is decremented and
`current_requests` incremented; headers report the post-increment usage. -/
def acquire (st : ThState) : ThState × Bool × ThHeaders :=
  let result := decide (0 < st.sem)
  let sem1 := if result then st.sem - 1 else st.sem
  let curr1 := if result then st.current_requests + 1 else st.current_requests
  let hdrs : ThHeaders :=
    { limit := st.max_concurrent
      usage := curr1
      remaining := if result then st.max_concurrent - curr1 else 0 }
  (⟨st.max_concurrent, sem1, curr1⟩, result, hdrs)

/-- `RequestThrottler.release`: `current_requests = max(0, current_requests - 1)`
and an unconditional (unbounded) semaphore increment. -/
def release (st : ThState) : ThState :=
  ⟨st.max_concurrent, st.sem + 1, max 0 (st.current_requests - 1)⟩

/-- An operation on the throttler: a (non-blocking) acquire or a release. -/
inductive ThOp where
  | acq : ThOp
  | rel : ThOp
  deriving DecidableEq

/-- Effect of one throttler operation on the state. -/
def thStep (st : ThState) : ThOp → ThState
  | .acq => (acquire st).1
  | .rel => release st

/-- Run a sequence of acquire/release operations. -/
def thRun (st : ThState) (ops : List ThOp) : ThState :=
  ops.foldl thStep st

/-- A sequence of operations is balanced from `st` when every release is
issued while at least one request is in flight, i.e. it matches a prior
successful acquire (the "correct pipeline usage" of the spec). -/
def balancedFrom (st : ThState) : List ThOp → Bool
  | [] => true
  | op :: rest =>
    (op = ThOp.rel → 0 < st.current_requests) && balancedFrom (thStep st op) rest

/-- Observable throttler events of one pipeline pass, in the order they
happen: the acquire outcome, the handler invocation, the release. -/
inductive ThEvent where
  | acqOk : ThEvent
  | acqFail : ThEvent
  | handlerRun : ThEvent
  | released : ThEvent
  deriving DecidableEq

/-- `apply_throttling` (`app/api/middleware.py`, lines 33-56): acquire a
slot; on denial answer 503 with the throttle headers and no payload; on
success run the handler inside try/finally, so the release happens on the
normal return and on the raised-error path alike, before the result or the
error reaches the caller.  The handler is an `Except`: `.error e` is a
raised exception.  The trace records the throttler events in order. -/
def apply_throttling {ε ρ : Type} (enabled : Bool) (st : ThState)
    (handler : Except ε (ρ × ℤ)) :
    ThState × Except ε (Option ρ × Option ThHeaders × ℤ) × List ThEvent :=
  if enabled then
    let a := acquire st
    if a.2.1 then
      match handler with
      | .ok (r, code) =>
        (release a.1, .ok (some r, some a.2.2, code), [.acqOk, .handlerRun, .released])
      | .error e =>
        (release a.1, .error e, [.acqOk, .handlerRun, .released])
    else
      (a.1, .ok (none, some a.2.2, 503), [.acqFail])
  else
    match handler with
    | .ok (r, code) => (st, .ok (some r, none, code), [.handlerRun])
    | .error e => (st, .error e, [.handlerRun])

/-- Outcome of the `/translate` route, modulo the response body: the
status code, which gates contributed headers to the merged header set,
and whether the downstream handler ran. -/
structure TransOut where
  status : ℤ
  rl : Option RLHeaders
  th : Option ThHeaders
  handlerRan : Bool
  deriving DecidableEq

/-- Throttling section of the `translate` route (`app/api/routes.py`,
lines 48-84): acquire when enabled, answer 503 on denial, otherwise run
the handler under try/finally and release; with throttling disabled the
handler runs directly. -/
def throttleStage {ε ρ : Type} (thEnabled : Bool) (ths : ThState)
    (rh : Option RLHeaders) (handler : Except ε (ρ × ℤ)) :
    ThState × Except ε (Option ρ × TransOut) :=
  if thEnabled then
    let a := acquire ths
    if a.2.1 then
      match handler with
      | .ok (r, code) => (release a.1, .ok (some r, ⟨code, rh, some a.2.2, true⟩))
      | .error e => (release a.1, .error e)
    else
      (a.1, .ok (none, ⟨503, rh, some a.2.2, false⟩))
  else
    match handler with
    | .ok (r, code) => (ths, .ok (some r, ⟨code, rh, none, true⟩))
    | .error e => (ths, .error e)

/-- The `translate` route (`app/api/routes.py`, lines 36-87): when the
rate-limit gate is enabled, `check()` runs first and a denial returns 429
at once with the rate headers only; otherwise the throttling stage runs
with the rate headers carried into the merged header set. -/
def translateRoute {ε ρ : Type} (rlEnabled thEnabled : Bool) (rls : RLState)
    (ths : ThState) (now : ℚ) (handler : Except ε (ρ × ℤ)) :
    RLState × ThState × Except ε (Option ρ × TransOut) :=
  if rlEnabled then
    let c := check rls now
    if c.2.1 then
      let s := throttleStage thEnabled ths (some c.2.2) handler
      (c.1, s.1, s.2)
    else
      (c.1, ths, .ok (none, ⟨429, some c.2.2, none, false⟩))
  else
    let s := throttleStage thEnabled ths none handler
    (rls, s.1, s.2)

/-- The `health_check` and `get_config` routes (`app/api/routes.py`,
lines 9-34 and 88-105; both gate identically): build a 200 response, then,
per enabled gate, consult it only for its headers — the rate-limit
decision is discarded, and an acquired slot is released immediately. -/
def infoRoute (rlEnabled thEnabled : Bool) (rls : RLState) (ths : ThState)
    (now : ℚ) : RLState × ThState × ℤ × Option RLHeaders × Option ThHeaders :=
  let r := if rlEnabled then ((check rls now).1, some (check rls now).2.2)
           else (rls, none)
  let t := if thEnabled then (release (acquire ths).1, some (acquire ths).2.2)
           else (ths, none)
  (r.1, t.1, 200, r.2, t.2)

/-! ### Basic lemmas about `check` -/

/-- Token-bounds invariant of the limiter state. -/
def RLInv (st : RLState) : Prop := 0 ≤ st.tokens ∧ st.tokens ≤ (st.burst : ℚ)

lemma replenish_eq_min (st : RLState) (now : ℚ) :
    replenish st now =
      min (st.burst : ℚ)
        (st.tokens + (now - st.last_check) * ((st.requests_per_minute : ℚ) / 60)) := by
  simp only [replenish]
  rcases lt_or_ge (st.burst : ℚ)
      (st.tokens + (now - st.last_check) * ((st.requests_per_minute : ℚ) / 60)) with h | h
  · rw [if_pos h, min_eq_left h.le]
  · rw [if_neg (not_lt.mpr h), min_eq_right h]

lemma check_fst (st : RLState) (now : ℚ) :
    (check st now).1 = ⟨st.requests_per_minute, st.burst,
      if 1 ≤ replenish st now then replenish st now - 1 else replenish st now, now⟩ := by
  simp only [check]
  by_cases h : 1 ≤ replenish st now
  · rw [if_pos h, if_pos h]
  · rw [if_neg h, if_neg h]

lemma check_decision (st : RLState) (now : ℚ) :
    (check st now).2.1 = decide (1 ≤ replenish st now) := by
  simp only [check]
  by_cases h : 1 ≤ replenish st now
  · rw [if_pos h]
    simp [h]
  · rw [if_neg h]
    simp [h]

lemma check_headers (st : RLState) (now : ℚ) :
    (check st now).2.2 = ⟨st.requests_per_minute, fmt1 (replenish st now),
      pytrunc (60 * (1 - replenish st now / (st.requests_per_minute : ℚ))),
      if 1 ≤ replenish st now then none
      else some (pytrunc ((1 - replenish st now) * (60 / (st.requests_per_minute : ℚ))))⟩ := by
  simp only [check]
  by_cases h : 1 ≤ replenish st now
  · rw [if_pos h, if_pos h]
  · rw [if_neg h, if_neg h]

lemma replenish_bounds (st : RLState) (now : ℚ)
    (hr : 0 ≤ st.requests_per_minute) (hl : st.last_check ≤ now) (hinv : RLInv st) :
    0 ≤ replenish st now ∧ replenish st now ≤ (st.burst : ℚ) := by
  obtain ⟨h0, hb⟩ := hinv
  simp only [replenish]
  have hrq : (0 : ℚ) ≤ (st.requests_per_minute : ℚ) := by exact_mod_cast hr
  have h60 : (0 : ℚ) ≤ 60 := by norm_num
  have hmul : 0 ≤ (now - st.last_check) * ((st.requests_per_minute : ℚ) / 60) :=
    mul_nonneg (sub_nonneg.mpr hl) (div_nonneg hrq h60)
  have h1 : 0 ≤ st.tokens + (now - st.last_check) * ((st.requests_per_minute : ℚ) / 60) := by
    linarith
  have hb0 : (0 : ℚ) ≤ (st.burst : ℚ) := le_trans h0 hb
  split
  · exact ⟨hb0, le_refl _⟩
  · exact ⟨h1, le_of_not_lt (by assumption)⟩

lemma check_preserves_inv (st : RLState) (now : ℚ)
    (hr : 0 ≤ st.requests_per_minute) (hl : st.last_check ≤ now) (hinv : RLInv st) :
    RLInv (check st now).1 ∧ (check st now).1.last_check = now ∧
      (check st now).1.requests_per_minute = st.requests_per_minute ∧
      (check st now).1.burst = st.burst := by
  obtain ⟨hrep0, hrepb⟩ := replenish_bounds st now hr hl hinv
  rw [check_fst]
  refine ⟨⟨?_, ?_⟩, rfl, rfl, rfl⟩
  · dsimp only
    split
    · linarith
    · exact hrep0
  · dsimp only
    split
    · linarith
    · exact hrepb

lemma runChecks_inv (ts : List ℚ) : ∀ st : RLState,
    0 ≤ st.requests_per_minute → RLInv st → List.Chain (· ≤ ·) st.last_check ts →
    RLInv (runChecks st ts) ∧ (runChecks st ts).burst = st.burst ∧
      (runChecks st ts).requests_per_minute = st.requests_per_minute := by
  induction ts with
  | nil => exact fun st _ hinv _ => ⟨hinv, rfl, rfl⟩
  | cons t rest ih =>
    intro st hr hinv hch
    rw [List.chain_cons] at hch
    obtain ⟨hle, hch'⟩ := hch
    obtain ⟨hinv', hlast, hrpm, hburst⟩ := check_preserves_inv st t hr hle hinv
    have hrun : runChecks st (t :: rest) = runChecks (check st t).1 rest := rfl
    have := ih (check st t).1 (hrpm ▸ hr) hinv' (by rw [hlast]; exact hch')
    rw [hrun]
    exact ⟨this.1, by rw [this.2.1, hburst], by rw [this.2.2, hrpm]⟩

/-- C1: from the initial state (tokens = burst, any start time), for every
sequence of `check()` calls at nondecreasing timestamps, the token balance
satisfies `0 ≤ tokens ≤ burst` after every call returns (every such
sequence of calls is itself reachable, so the bound after each call is the
instance of this statement at the corresponding prefix). -/
theorem token_bounds (rpm b : ℤ) (t0 : ℚ) (ts : List ℚ)
    (hr : 0 ≤ rpm) (hb : 0 ≤ b) (hts : List.Chain (· ≤ ·) t0 ts) :
    0 ≤ (runChecks (RateLimiter.init rpm b t0) ts).tokens ∧
      (runChecks (RateLimiter.init rpm b t0) ts).tokens ≤ (b : ℚ) := by
  have hinv : RLInv (RateLimiter.init rpm b t0) :=
    ⟨by show (0 : ℚ) ≤ (b : ℚ); exact_mod_cast hb, le_refl _⟩
  have h := runChecks_inv ts (RateLimiter.init rpm b t0) hr hinv hts
  have hb2 := h.1.2
  rw [h.2.1] at hb2
  exact ⟨h.1.1, hb2⟩

/-- Witness for C1 at a concrete configuration and call sequence. -/
theorem token_bounds_witness :
    (0 : ℤ) ≤ 60 ∧ (0 : ℤ) ≤ 10 ∧ List.Chain (· ≤ ·) (0 : ℚ) [0, 1, 2] ∧
      (0 ≤ (runChecks (RateLimiter.init 60 10 0) [0, 1, 2]).tokens ∧
        (runChecks (RateLimiter.init 60 10 0) [0, 1, 2]).tokens ≤ (10 : ℚ)) :=
  ⟨by norm_num, by norm_num, by norm_num [List.chain_cons],
    token_bounds 60 10 0 [0, 1, 2] (by norm_num) (by norm_num) (by norm_num [List.chain_cons])⟩

/-! ### Throttler invariants -/

/-- Invariant tying the in-flight count to the semaphore counter; it holds
along any run without mismatched releases. -/
def ThInv (st : ThState) : Prop :=
  0 ≤ st.current_requests ∧ (st.sem : ℤ) = st.max_concurrent - st.current_requests

lemma thStep_nonneg (st : ThState) (op : ThOp) (h : 0 ≤ st.current_requests) :
    0 ≤ (thStep st op).current_requests := by
  cases op
  · by_cases hs : 0 < st.sem <;> simp [thStep, acquire, hs] <;> linarith
  · simp only [thStep, release]
    exact le_max_left 0 _

lemma thRun_nonneg (ops : List ThOp) : ∀ st : ThState,
    0 ≤ st.current_requests → 0 ≤ (thRun st ops).current_requests := by
  induction ops with
  | nil => exact fun _ h => h
  | cons op rest ih => exact fun st h => ih (thStep st op) (thStep_nonneg st op h)

lemma thStep_max (st : ThState) (op : ThOp) :
    (thStep st op).max_concurrent = st.max_concurrent := by
  cases op
  · by_cases hs : 0 < st.sem <;> simp [thStep, acquire, hs]
  · rfl

lemma thRun_max (ops : List ThOp) : ∀ st : ThState,
    (thRun st ops).max_concurrent = st.max_concurrent := by
  induction ops with
  | nil => exact fun _ => rfl
  | cons op rest ih => exact fun st => (ih (thStep st op)).trans (thStep_max st op)

lemma thStep_inv (st : ThState) (op : ThOp) (hinv : ThInv st)
    (hb : op = ThOp.rel → 0 < st.current_requests) : ThInv (thStep st op) := by
  obtain ⟨h0, hsem⟩ := hinv
  cases op
  · by_cases hs : 0 < st.sem
    · have h1 : (1 : ℕ) ≤ st.sem := hs
      refine ⟨by simp [thStep, acquire, hs]; linarith, ?_⟩
      simp only [thStep, acquire, hs]
      simp only [decide_eq_true_eq, if_pos hs]
      push_cast [Nat.cast_sub h1]
      omega
    · refine ⟨by simpa [thStep, acquire, hs] using h0, ?_⟩
      simp only [thStep, acquire, hs]
      simp only [decide_eq_true_eq, if_neg hs]
      exact hsem
  · have hpos : 0 < st.current_requests := hb rfl
    constructor
    · simp only [thStep, release]
      exact le_max_left 0 _
    · simp only [thStep, release]
      rw [max_eq_right (by omega : (0 : ℤ) ≤ st.current_requests - 1)]
      push_cast
      omega

lemma thRun_inv (ops : List ThOp) : ∀ st : ThState,
    ThInv st → balancedFrom st ops = true → ThInv (thRun st ops) := by
  induction ops with
  | nil => exact fun _ hinv _ => hinv
  | cons op rest ih =>
    intro st hinv hb
    simp only [balancedFrom, Bool.and_eq_true, decide_eq_true_eq] at hb
    exact ih (thStep st op) (thStep_inv st op hinv hb.1) hb.2

/-- C2 (amended): from the initial state, `current_requests` never goes
negative under any sequence of acquire/release calls (`release` floors at
0, so a mismatched release cannot underflow), and it never exceeds
`max_concurrent` for every sequence in which each release matches a prior
successful acquire; a mismatched release, however, inflates the unbounded
semaphore and can push `current_requests` past `max_concurrent`
(see the counterexample). -/
theorem concurrency_cap (m : ℤ) (st₀ : ThState)
    (h : RequestThrottler.init m = some st₀) (ops : List ThOp) :
    0 ≤ (thRun st₀ ops).current_requests ∧
      (balancedFrom st₀ ops = true → (thRun st₀ ops).current_requests ≤ m) := by
  simp only [RequestThrottler.init] at h
  split at h
  · exact absurd h (by simp)
  · have hm : ¬ m < 0 := by assumption
    have hst : st₀ = ⟨m, m.toNat, 0⟩ := by
      cases h
      rfl
    subst hst
    constructor
    · exact thRun_nonneg ops _ le_rfl
    · intro hbal
      have hinv₀ : ThInv ⟨m, m.toNat, 0⟩ :=
        ⟨le_rfl, by simp [Int.toNat_of_nonneg (not_lt.mp hm)]⟩
      have hinv := thRun_inv ops _ hinv₀ hbal
      have hmax : (thRun ⟨m, m.toNat, 0⟩ ops).max_concurrent = m :=
        thRun_max ops (⟨m, m.toNat, 0⟩ : ThState)
      have hs : (0 : ℤ) ≤ ((thRun ⟨m, m.toNat, 0⟩ ops).sem : ℤ) := Int.natCast_nonneg _
      rw [hinv.2, hmax] at hs
      omega

/-- Counterexample to C2 as stated: with `max_concurrent = 1`, the
sequence release-acquire-acquire (a mismatched release first) drives
`current_requests` to 2, exceeding the cap. -/
theorem concurrency_cap_cex :
    RequestThrottler.init 1 = some ⟨1, 1, 0⟩ ∧
      (thRun ⟨1, 1, 0⟩ [ThOp.rel, ThOp.acq, ThOp.acq]).current_requests = 2 ∧
      ¬ ((thRun ⟨1, 1, 0⟩ [ThOp.rel, ThOp.acq, ThOp.acq]).current_requests ≤
          (⟨1, 1, 0⟩ : ThState).max_concurrent) := by
  decide

/-- Witness for C2 (amended) on a concrete balanced run. -/
theorem concurrency_cap_witness :
    RequestThrottler.init 2 = some ⟨2, 2, 0⟩ ∧
      balancedFrom ⟨2, 2, 0⟩ [ThOp.acq, ThOp.rel, ThOp.acq] = true ∧
      0 ≤ (thRun ⟨2, 2, 0⟩ [ThOp.acq, ThOp.rel, ThOp.acq]).current_requests ∧
      (thRun ⟨2, 2, 0⟩ [ThOp.acq, ThOp.rel, ThOp.acq]).current_requests ≤ 2 :=
  ⟨by decide, by decide,
    (concurrency_cap 2 ⟨2, 2, 0⟩ (by decide) [ThOp.acq, ThOp.rel, ThOp.acq]).1,
    (concurrency_cap 2 ⟨2, 2, 0⟩ (by decide) [ThOp.acq, ThOp.rel, ThOp.acq]).2 (by decide)⟩

/-! ### Admission decision, division safety, header formulas -/

lemma check_total_of_rpm_ne_zero (st : RLState) (now : ℚ)
    (h : st.requests_per_minute ≠ 0) : checkE st now = some (check st now) := by
  have hq : ((st.requests_per_minute : ℚ)) ≠ 0 := Int.cast_ne_zero.mpr h
  by_cases h2 : 1 ≤ replenish st now <;>
    simp [checkE, check, pydiv, hq, h2, div_eq_mul_inv, mul_comm]

/-- C3: on every `check()` call with a non-zero rate, the call returns
(never raises), tokens are replenished to
`min(burst, tokens + elapsed * requestsPerMinute / 60)`, the call allows
and deducts exactly one token iff the replenished balance is at least 1,
and otherwise denies with no deduction. -/
theorem check_admission (st : RLState) (now : ℚ) (h : st.requests_per_minute ≠ 0) :
    checkE st now = some (check st now) ∧
      (check st now).2.1 = decide (1 ≤ min (st.burst : ℚ)
        (st.tokens + (now - st.last_check) * ((st.requests_per_minute : ℚ) / 60))) ∧
      (check st now).1.tokens =
        (if 1 ≤ min (st.burst : ℚ)
            (st.tokens + (now - st.last_check) * ((st.requests_per_minute : ℚ) / 60))
          then min (st.burst : ℚ)
            (st.tokens + (now - st.last_check) * ((st.requests_per_minute : ℚ) / 60)) - 1
          else min (st.burst : ℚ)
            (st.tokens + (now - st.last_check) * ((st.requests_per_minute : ℚ) / 60))) := by
  refine ⟨check_total_of_rpm_ne_zero st now h, ?_, ?_⟩
  · rw [check_decision, replenish_eq_min]
  · rw [check_fst, ← replenish_eq_min]

/-- Counterexample to the unconditional never-fails clause of C3: a
limiter with `requestsPerMinute = 0` raises `ZeroDivisionError` on a
`check()` call instead of returning. -/
theorem check_admission_cex : checkE ⟨0, 10, 10, 0⟩ 0 = none := by
  simp [checkE, pydiv]

/-- Witness for C3 at a concrete state: rate 60/min, burst 10, balance 5. -/
theorem check_admission_witness :
    (⟨60, 10, 5, 0⟩ : RLState).requests_per_minute ≠ 0 ∧
      checkE ⟨60, 10, 5, 0⟩ 0 = some (check ⟨60, 10, 5, 0⟩ 0) :=
  ⟨by norm_num, (check_admission ⟨60, 10, 5, 0⟩ 0 (by norm_num)).1⟩

/-- C6: with `requestsPerMinute = 0` every `check()` call divides the
token balance by zero while building the `X-RateLimit-Reset` header and
raises `ZeroDivisionError` (the divisions are not guarded), instead of the
specified always-deny behaviour. -/
theorem rpm_zero_check_raises (b : ℤ) (t0 now : ℚ) :
    checkE (RateLimiter.init 0 b t0) now = none := by
  simp [checkE, pydiv, RateLimiter.init]

/-- C9: the constructors perform no validation: a rate limiter with a zero
rate is constructed successfully (the invalid value only surfaces as a
per-request `ZeroDivisionError` in `check()`), and the throttler accepts a
zero capacity. -/
theorem no_construction_validation :
    RateLimiter.init 0 5 0 = ⟨0, 5, 5, 0⟩ ∧
      checkE (RateLimiter.init 0 5 0) 1 = none ∧
      RequestThrottler.init 0 = some ⟨0, 0, 0⟩ := by
  refine ⟨rfl, ?_, by decide⟩
  simp [checkE, pydiv, RateLimiter.init]

/-- C7 (amended): every `check()` call emits `X-RateLimit-Limit` =
requestsPerMinute, `X-RateLimit-Remaining` = the replenished balance
formatted to one decimal place, `X-RateLimit-Reset` = the Python `int()`
truncation (toward zero, not `round`) of `60 * (1 - tokens/requestsPerMinute)`,
and, exactly on denial, `Retry-After` = the `int()` truncation of
`(1 - tokens) * 60 / requestsPerMinute`. -/
theorem header_formulas (st : RLState) (now : ℚ) :
    (check st now).2.2.limit = st.requests_per_minute ∧
      (check st now).2.2.remaining = fmt1 (replenish st now) ∧
      (check st now).2.2.reset =
        pytrunc (60 * (1 - replenish st now / (st.requests_per_minute : ℚ))) ∧
      (check st now).2.2.retryAfter =
        (if 1 ≤ replenish st now then none
         else some (pytrunc ((1 - replenish st now) * (60 / (st.requests_per_minute : ℚ))))) := by
  rw [check_headers]
  exact ⟨rfl, rfl, rfl, rfl⟩

/-- Counterexample to C7 as stated: at a replenished balance of 58.5 with
requestsPerMinute = 60, the code emits `X-RateLimit-Reset` = int(1.5) = 1,
whereas the claimed formula `round(60 * (1 - tokens/requestsPerMinute))` =
round(1.5) = 2. -/
theorem header_reset_cex :
    (check ⟨60, 60, 117/2, 0⟩ 0).2.2.reset = 1 ∧
      round ((60 : ℚ) * (1 - (117/2 : ℚ) / 60)) = 2 ∧
      (check ⟨60, 60, 117/2, 0⟩ 0).2.2.reset ≠
        round ((60 : ℚ) * (1 - (117/2 : ℚ) / 60)) := by
  have hrep : replenish ⟨60, 60, 117/2, 0⟩ 0 = 117/2 := by
    norm_num [replenish]
  have h1 : (check ⟨60, 60, 117/2, 0⟩ 0).2.2.reset = 1 := by
    rw [check_headers, hrep]
    norm_num [pytrunc]
  have h2 : round ((60 : ℚ) * (1 - (117/2 : ℚ) / 60)) = 2 := by
    norm_num [round_eq]
  exact ⟨h1, h2, by rw [h1, h2]; norm_num⟩

/-! ### No double-spend under same-instant calls -/

lemma replenish_self (st : RLState) (hb : st.tokens ≤ (st.burst : ℚ)) :
    replenish st st.last_check = st.tokens := by
  simp only [replenish]
  have ht1 : st.tokens + (st.last_check - st.last_check) *
      ((st.requests_per_minute : ℚ) / 60) = st.tokens := by ring
  rw [ht1, if_neg (not_lt.mpr hb)]

lemma repeatCheck_spec (n : ℕ) : ∀ st : RLState,
    0 ≤ st.tokens → st.tokens ≤ (st.burst : ℚ) →
    ((repeatCheck st n).2 : ℚ) ≤ st.tokens ∧
      (repeatCheck st n).2 ≤ (⌊st.tokens⌋).toNat ∧
      (repeatCheck st n).1.tokens = st.tokens - (repeatCheck st n).2 := by
  induction n with
  | zero =>
    intro st h0 _
    exact ⟨by simpa using h0, by simp [repeatCheck], by simp [repeatCheck]⟩
  | succ n ih =>
    intro st h0 hb
    have hrep := replenish_self st hb
    have hdec : (check st st.last_check).2.1 = decide (1 ≤ st.tokens) := by
      rw [check_decision, hrep]
    have hfst : (check st st.last_check).1 = ⟨st.requests_per_minute, st.burst,
        if 1 ≤ st.tokens then st.tokens - 1 else st.tokens, st.last_check⟩ := by
      rw [check_fst, hrep]
    have hunfold : repeatCheck st (n + 1) =
        ((repeatCheck (check st st.last_check).1 n).1,
          (if (check st st.last_check).2.1 then 1 else 0) +
            (repeatCheck (check st st.last_check).1 n).2) := rfl
    by_cases hc : 1 ≤ st.tokens
    · have hst1 : (check st st.last_check).1 =
          ⟨st.requests_per_minute, st.burst, st.tokens - 1, st.last_check⟩ := by
        rw [hfst, if_pos hc]
      have h0' : (0 : ℚ) ≤ st.tokens - 1 := by linarith
      have hb' : st.tokens - 1 ≤ (st.burst : ℚ) := by linarith
      obtain ⟨ha, hcnt, htok⟩ := by
        have := ih (⟨st.requests_per_minute, st.burst, st.tokens - 1,
          st.last_check⟩ : RLState) h0' hb'
        exact this
      have hfloor1 : (1 : ℤ) ≤ ⌊st.tokens⌋ := Int.le_floor.mpr (by exact_mod_cast hc)
      have hfloorsub : ⌊st.tokens - 1⌋ = ⌊st.tokens⌋ - 1 := by
        exact_mod_cast Int.floor_sub_int st.tokens 1
      rw [hunfold, hst1, hdec]
      have hcb : decide (1 ≤ st.tokens) = true := decide_eq_true hc
      rw [hcb]
      refine ⟨?_, ?_, ?_⟩
      · simp only [if_true]
        push_cast
        dsimp only at ha
        linarith
      · simp only [if_true]
        rw [hfloorsub] at hcnt
        omega
      · simp only [if_true]
        dsimp only at htok
        rw [htok]
        push_cast
        ring
    · have hst1 : (check st st.last_check).1 =
          ⟨st.requests_per_minute, st.burst, st.tokens, st.last_check⟩ := by
        rw [hfst, if_neg hc]
      obtain ⟨ha, hcnt, htok⟩ := by
        have := ih (⟨st.requests_per_minute, st.burst, st.tokens,
          st.last_check⟩ : RLState) h0 hb
        exact this
      rw [hunfold, hst1, hdec]
      have hcb : decide (1 ≤ st.tokens) = false := decide_eq_false hc
      rw [hcb]
      refine ⟨?_, ?_, ?_⟩
      · simp only [if_false]
        push_cast
        dsimp only at ha
        linarith
      · dsimp only at hcnt
        simp only [Bool.false_eq_true, if_false]
        omega
      · simp only [if_false]
        dsimp only at htok
        rw [htok]
        push_cast
        ring

/-- C8: when `n` `check()` calls are issued at the same instant with token
balance `T` (with `0 ≤ T ≤ burst`), at most `⌊T⌋` of them are allowed, and
the total number of tokens deducted — the drop in the balance — equals the
number of allowed calls and never exceeds `T`. -/
theorem no_double_spend (st : RLState) (n : ℕ)
    (h0 : 0 ≤ st.tokens) (hb : st.tokens ≤ (st.burst : ℚ)) :
    (repeatCheck st n).2 ≤ (⌊st.tokens⌋).toNat ∧
      ((repeatCheck st n).2 : ℚ) ≤ st.tokens ∧
      st.tokens - (repeatCheck st n).1.tokens = ((repeatCheck st n).2 : ℚ) := by
  obtain ⟨ha, hcnt, htok⟩ := repeatCheck_spec n st h0 hb
  exact ⟨hcnt, ha, by rw [htok]; ring⟩

/-- Witness for C8: balance 2.5, seven same-instant calls. -/
theorem no_double_spend_witness :
    (0 : ℚ) ≤ (⟨60, 10, 5/2, 0⟩ : RLState).tokens ∧
      (⟨60, 10, 5/2, 0⟩ : RLState).tokens ≤ (((⟨60, 10, 5/2, 0⟩ : RLState).burst : ℤ) : ℚ) ∧
      (repeatCheck ⟨60, 10, 5/2, 0⟩ 7).2 ≤ (⌊(⟨60, 10, 5/2, 0⟩ : RLState).tokens⌋).toNat ∧
      ((repeatCheck ⟨60, 10, 5/2, 0⟩ 7).2 : ℚ) ≤ (⟨60, 10, 5/2, 0⟩ : RLState).tokens :=
  ⟨by norm_num, by norm_num,
    (no_double_spend ⟨60, 10, 5/2, 0⟩ 7 (by norm_num) (by norm_num)).1,
    (no_double_spend ⟨60, 10, 5/2, 0⟩ 7 (by norm_num) (by norm_num)).2.1⟩

/-! ### Pipeline composition -/

lemma acquire_decision (st : ThState) : (acquire st).2.1 = decide (0 < st.sem) := rfl

lemma acquire_fst_of_success (st : ThState) (hs : 0 < st.sem) :
    (acquire st).1 = ⟨st.max_concurrent, st.sem - 1, st.current_requests + 1⟩ := by
  have hd : decide (0 < st.sem) = true := decide_eq_true hs
  simp [acquire, hd]

lemma release_acquire_of_success (st : ThState) (h0 : 0 ≤ st.current_requests)
    (hs : 0 < st.sem) : release (acquire st).1 = st := by
  rw [acquire_fst_of_success st hs]
  show (⟨st.max_concurrent, st.sem - 1 + 1,
    max 0 (st.current_requests + 1 - 1)⟩ : ThState) = st
  have h1 : st.sem - 1 + 1 = st.sem := Nat.succ_pred_eq_of_pos hs
  have h2 : max (0 : ℤ) (st.current_requests + 1 - 1) = st.current_requests := by
    rw [add_sub_cancel_right]
    exact max_eq_right h0
  rw [h1, h2]

lemma apply_throttling_trace {ε ρ : Type} (st : ThState)
    (handler : Except ε (ρ × ℤ)) :
    (apply_throttling true st handler).2.2 =
      if (acquire st).2.1 then [ThEvent.acqOk, ThEvent.handlerRun, ThEvent.released]
      else [ThEvent.acqFail] := by
  by_cases ha : (acquire st).2.1 = true
  · cases handler with
    | ok rc =>
      obtain ⟨r, code⟩ := rc
      simp [apply_throttling, ha]
    | error e =>
      simp [apply_throttling, ha]
  · have ha' : (acquire st).2.1 = false := by simpa using ha
    cases handler with
    | ok rc =>
      obtain ⟨r, code⟩ := rc
      simp [apply_throttling, ha']
    | error e =>
      simp [apply_throttling, ha']

lemma apply_throttling_error {ε ρ : Type} (st : ThState) (e : ε)
    (ha : (acquire st).2.1 = true) :
    (apply_throttling true st (Except.error e : Except ε (ρ × ℤ))).2.1 =
      Except.error e := by
  simp [apply_throttling, ha]

lemma apply_throttling_state {ε ρ : Type} (st : ThState)
    (handler : Except ε (ρ × ℤ)) (ha : (acquire st).2.1 = true) :
    (apply_throttling true st handler).1 = release (acquire st).1 := by
  cases handler with
  | ok rc =>
    obtain ⟨r, code⟩ := rc
    simp [apply_throttling, ha]
  | error e =>
    simp [apply_throttling, ha]

/-- C4: with throttling enabled, the releases in the event trace of one
pipeline pass match the successful acquires exactly — one release on every
exit path after a successful acquire (normal return or raised handler
error), none after a failed acquire; an error raised by the handler is
propagated to the caller unchanged (after the release, which precedes it
in the trace); and a successful acquire-run-release pass restores the
throttler state it started from. -/
theorem pipeline_release_balanced {ε ρ : Type} (st : ThState)
    (handler : Except ε (ρ × ℤ)) :
    ((apply_throttling true st handler).2.2.count ThEvent.released =
        (apply_throttling true st handler).2.2.count ThEvent.acqOk) ∧
      ((acquire st).2.1 = true →
        (apply_throttling true st handler).2.2 =
          [ThEvent.acqOk, ThEvent.handlerRun, ThEvent.released]) ∧
      ((acquire st).2.1 = false →
        (apply_throttling true st handler).2.2 = [ThEvent.acqFail]) ∧
      (∀ e : ε, (acquire st).2.1 = true → handler = Except.error e →
        (apply_throttling true st handler).2.1 = Except.error e) ∧
      ((acquire st).2.1 = true → 0 ≤ st.current_requests →
        (apply_throttling true st handler).1 = st) := by
  refine ⟨?_, ?_, ?_, ?_, ?_⟩
  · rw [apply_throttling_trace]
    by_cases ha : (acquire st).2.1 = true <;> simp [ha]
  · intro ha
    rw [apply_throttling_trace]
    simp [ha]
  · intro ha
    rw [apply_throttling_trace]
    simp [ha]
  · intro e ha he
    subst he
    exact apply_throttling_error st e ha
  · intro ha h0
    have hs : 0 < st.sem := of_decide_eq_true ((acquire_decision st) ▸ ha)
    rw [apply_throttling_state st handler ha]
    exact release_acquire_of_success st h0 hs

/-- Witness for C4: capacity 2, idle throttler, handler raising error 7:
trace acquire-run-release, error propagated, state restored. -/
theorem pipeline_release_balanced_witness :
    (acquire (⟨2, 2, 0⟩ : ThState)).2.1 = true ∧
      (0 : ℤ) ≤ (⟨2, 2, 0⟩ : ThState).current_requests ∧
      (apply_throttling true ⟨2, 2, 0⟩ (Except.error (7 : ℕ) : Except ℕ (ℕ × ℤ))).2.2 =
        [ThEvent.acqOk, ThEvent.handlerRun, ThEvent.released] ∧
      (apply_throttling true ⟨2, 2, 0⟩ (Except.error (7 : ℕ) : Except ℕ (ℕ × ℤ))).2.1 =
        Except.error 7 ∧
      (apply_throttling true ⟨2, 2, 0⟩ (Except.error (7 : ℕ) : Except ℕ (ℕ × ℤ))).1 =
        ⟨2, 2, 0⟩ :=
  ⟨by decide, by decide,
    (pipeline_release_balanced ⟨2, 2, 0⟩ (Except.error (7 : ℕ))).2.1 (by decide),
    (pipeline_release_balanced ⟨2, 2, 0⟩ (Except.error (7 : ℕ))).2.2.2.1 7 (by decide) rfl,
    (pipeline_release_balanced ⟨2, 2, 0⟩ (Except.error (7 : ℕ))).2.2.2.2 (by decide) (by decide)⟩

/-- C5: on the `/translate` route with both gates enabled, a rate-limit
denial returns 429 immediately, carrying only the rate headers, with the
throttler state untouched; a rate-limit pass followed by a throttle denial
returns 503 with the merged rate and throttle headers; in both cases the
result is the same for every handler (the handler is never invoked) and
its `handlerRan` flag is false. -/
theorem pipeline_composition {ε ρ : Type} (rls : RLState) (ths : ThState)
    (now : ℚ) (handler : Except ε (ρ × ℤ)) (h : rls.requests_per_minute ≠ 0) :
    checkE rls now = some (check rls now) ∧
    ((check rls now).2.1 = false →
      translateRoute true true rls ths now handler =
        ((check rls now).1, ths,
          Except.ok (none, ⟨429, some (check rls now).2.2, none, false⟩))) ∧
      ((check rls now).2.1 = true → (acquire ths).2.1 = false →
        translateRoute true true rls ths now handler =
          ((check rls now).1, (acquire ths).1,
            Except.ok (none,
              ⟨503, some (check rls now).2.2, some (acquire ths).2.2, false⟩))) := by
  refine ⟨check_total_of_rpm_ne_zero rls now h, ?_, ?_⟩
  · intro hdeny
    simp only [translateRoute, if_true, hdeny, Bool.false_eq_true, if_false]
  · intro hallow hth
    simp only [translateRoute, throttleStage, if_true, hallow, hth,
      Bool.false_eq_true, if_false]

/-- Witness for C5: a denied rate check yields 429 without touching the
throttler; an allowed rate check with an exhausted semaphore yields 503;
the handler value is irrelevant in both. -/
theorem pipeline_composition_witness :
    (⟨60, 10, 1/2, 0⟩ : RLState).requests_per_minute ≠ 0 ∧
      (check ⟨60, 10, 1/2, 0⟩ 0).2.1 = false ∧
      translateRoute true true ⟨60, 10, 1/2, 0⟩ ⟨1, 0, 1⟩ 0
          (Except.ok ((0 : ℕ), (200 : ℤ)) : Except ℕ (ℕ × ℤ)) =
        ((check ⟨60, 10, 1/2, 0⟩ 0).1, ⟨1, 0, 1⟩,
          Except.ok (none, ⟨429, some (check ⟨60, 10, 1/2, 0⟩ 0).2.2, none, false⟩)) ∧
      (check ⟨60, 10, 5, 0⟩ 0).2.1 = true ∧
      (acquire (⟨1, 0, 1⟩ : ThState)).2.1 = false ∧
      translateRoute true true ⟨60, 10, 5, 0⟩ ⟨1, 0, 1⟩ 0
          (Except.ok ((0 : ℕ), (200 : ℤ)) : Except ℕ (ℕ × ℤ)) =
        ((check ⟨60, 10, 5, 0⟩ 0).1, (acquire ⟨1, 0, 1⟩).1,
          Except.ok (none, ⟨503, some (check ⟨60, 10, 5, 0⟩ 0).2.2,
            some (acquire ⟨1, 0, 1⟩).2.2, false⟩)) :=
  ⟨by norm_num,
    by rw [check_decision]; norm_num [replenish],
    (pipeline_composition ⟨60, 10, 1/2, 0⟩ ⟨1, 0, 1⟩ 0
        (Except.ok ((0 : ℕ), (200 : ℤ))) (by norm_num)).2.1
      (by rw [check_decision]; norm_num [replenish]),
    by rw [check_decision]; norm_num [replenish],
    by decide,
    (pipeline_composition ⟨60, 10, 5, 0⟩ ⟨1, 0, 1⟩ 0
        (Except.ok ((0 : ℕ), (200 : ℤ))) (by norm_num)).2.2
      (by rw [check_decision]; norm_num [replenish]) (by decide)⟩

/-- C10: the `/health` and `/config` GET handlers with both gates enabled
always answer 200 — never 429 — while still running `check()` (so a token
is consumed exactly when the replenished balance is at least 1) and
acquiring and immediately releasing a throttle slot, both decisions
ignored; the rate headers are still attached. -/
theorem info_routes_ignore_gates (rls : RLState) (ths : ThState) (now : ℚ)
    (h : rls.requests_per_minute ≠ 0) :
    checkE rls now = some (check rls now) ∧
      (infoRoute true true rls ths now).2.2.1 = 200 ∧
      (infoRoute true true rls ths now).1 = (check rls now).1 ∧
      (1 ≤ replenish rls now →
        (infoRoute true true rls ths now).1.tokens = replenish rls now - 1) ∧
      (¬ 1 ≤ replenish rls now →
        (infoRoute true true rls ths now).1.tokens = replenish rls now) ∧
      (infoRoute true true rls ths now).2.1 = release (acquire ths).1 ∧
      (infoRoute true true rls ths now).2.2.2.1 = some (check rls now).2.2 := by
  refine ⟨check_total_of_rpm_ne_zero rls now h, rfl, rfl, ?_, ?_, rfl, rfl⟩
  · intro hge
    show (check rls now).1.tokens = _
    rw [check_fst]
    simp only [if_pos hge]
  · intro hlt
    show (check rls now).1.tokens = _
    rw [check_fst]
    simp only [if_neg hlt]

/-- Witness for C10: a state whose replenished balance 0.5 denies, yet the
route answers 200 and leaves the balance undeducted. -/
theorem info_routes_witness :
    (⟨60, 10, 1/2, 0⟩ : RLState).requests_per_minute ≠ 0 ∧
      ¬ 1 ≤ replenish ⟨60, 10, 1/2, 0⟩ 0 ∧
      (infoRoute true true ⟨60, 10, 1/2, 0⟩ ⟨1, 1, 0⟩ 0).2.2.1 = 200 ∧
      (infoRoute true true ⟨60, 10, 1/2, 0⟩ ⟨1, 1, 0⟩ 0).1.tokens =
        replenish ⟨60, 10, 1/2, 0⟩ 0 :=
  ⟨by norm_num, by norm_num [replenish],
    (info_routes_ignore_gates ⟨60, 10, 1/2, 0⟩ ⟨1, 1, 0⟩ 0 (by norm_num)).2.1,
    (info_routes_ignore_gates ⟨60, 10, 1/2, 0⟩ ⟨1, 1, 0⟩ 0 (by norm_num)).2.2.2.2.1
      (by norm_num [replenish])⟩

end U18n
